import Mathlib

/-!
Shallow embedding of the lazy broadcasting core of the xtensor repository
(src/include/xtensor/xbroadcast.hpp) together with the external collaborators
it relies on (the shape-broadcasting algorithm, the stepper/iterator protocol
and the element-access helper), which are declared but not defined under src/
and are therefore modelled from the specification.

Shapes are lists of natural numbers, outermost dimension first.  Machine
`size_t` arithmetic never overflows in any behaviour considered here, so
`Nat` is used directly.
-/

namespace Xbroadcast

/-- Error raised by the shape-broadcasting algorithm when two shapes cannot
be reconciled (spec section 7: the only validated error condition). -/
inductive BroadcastError where
  | shapeMismatch
deriving DecidableEq

/-- Modelled from the spec: the per-dimension core of the shape-broadcasting
algorithm (the free function `xt::broadcast_shape`, whose definition is not
under src/).  It processes already-aligned (source, target) dimension pairs.
Spec 4.1: a source extent of 1 is stretched to the target extent (target kept);
an equal pair passes through; the target storage is mutated when the source
requires a strictly larger value than a target extent of 1; any other pairing
is impossible and raises a shape-mismatch error.  The result is the mutated
target together with the flag telling whether the target shape was changed. -/
def bcastDims : List (Nat × Nat) → Except BroadcastError (List Nat × Bool)
  | [] => .ok ([], false)
  | (s, t) :: rest =>
    match bcastDims rest with
    | .error e => .error e
    | .ok (r, ch) =>
      if s = 1 ∨ s = t then .ok (t :: r, ch)
      else if t = 1 ∧ t < s then .ok (s :: r, true)
      else .error .shapeMismatch

/-- The source shape implicitly padded with leading dimensions of extent 1 up
to the target's rank (spec 4.1). -/
def padShape (src tgt : List Nat) : List Nat :=
  List.replicate (tgt.length - src.length) 1 ++ src

/-- The trailing-aligned (source, target) dimension pairs of two shapes,
after left-padding the source with extents 1 (spec 4.1). -/
def alignedPairs (src tgt : List Nat) : List (Nat × Nat) :=
  (padShape src tgt).zip tgt

/-- Modelled from the spec: the free shape-broadcasting algorithm
`xt::broadcast_shape(input, output)` (spec 4.1), not under src/.  Given a
source shape of rank r and a target of rank n with n >= r, it reconciles the
source into the target storage and reports whether the target was changed;
a target of smaller rank than the source violates the stated precondition and
is treated as a shape mismatch. -/
def broadcast_shape (input target : List Nat) :
    Except BroadcastError (List Nat × Bool) :=
  if target.length < input.length then .error .shapeMismatch
  else bcastDims (alignedPairs input target)

/-- The expression tree of the broadcasting core.  A `leaf` is an external
array-like collaborator, known only through the capability contract of spec
section 6: its shape, its variadic element accessor (`operator()`), its
multi-index-container accessor (`operator[]`), its storage element function
(what its stepper dereferences to), and its own triviality predicate on
candidate strides.  A `bcast` node is the `xbroadcast` class of
src/include/xtensor/xbroadcast.hpp: a child expression together with the
fixed target shape `m_shape` computed at construction. -/
inductive Expr (α : Type) where
  | leaf (sh : List Nat) (el : List Nat → α) (ap : List Nat → α)
      (ind : List Nat → α) (triv : List Int → Bool)
  | bcast (child : Expr α) (msh : List Nat)

/-- Shape of an expression; for a bcast node this is `m_shape`
(xbroadcast.hpp line 230). -/
def shape {α : Type} : Expr α → List Nat
  | .leaf sh _ _ _ _ => sh
  | .bcast _ msh => msh

/-- Rank; for a bcast node this is `m_shape.size()` (xbroadcast.hpp line 221). -/
def dimension {α : Type} (e : Expr α) : Nat := (shape e).length

/-- Modelled from the spec: alignment of an iteration multi-index with a
child shape, as performed by the stepper protocol of spec 4.3 — leading
index entries beyond the child's rank are dropped, and along any dimension
the child sees as extent 1 the underlying position is left unchanged
(per-dimension step of zero, i.e. the native index component is 0). -/
def alignIndex (childShape idx : List Nat) : List Nat :=
  List.zipWith (fun ext i => if ext = 1 then 0 else i) childShape
    (idx.drop (idx.length - childShape.length))

/-- All multi-indices of a shape in row-major order (outermost dimension
varies slowest). -/
def allIndices : List Nat → List (List Nat)
  | [] => [[]]
  | n :: rest => ((List.range n).map fun i => (allIndices rest).map (i :: ·)).flatten

/-- Modelled from the spec: the sequence of elements produced by stepping a
cursor obtained from `stepper_begin(s)` up to `stepper_end(s)` over the
requested shape `s` (spec 4.3).  A leaf's cursor reads its storage at the
aligned native index; a bcast node constructs no cursor of its own and
delegates to its child's cursor over the same requested shape
(xbroadcast.hpp lines 390-404: `return m_e.stepper_begin(shape);`). -/
def stepperElems {α : Type} : Expr α → List Nat → List α
  | .leaf sh el _ _ _, s => (allIndices s).map fun ix => el (alignIndex sh ix)
  | .bcast c _, s => stepperElems c s

/-- Sequence traversed by the shape-parameterized iterator range
`xbegin(s) .. xend(s)` (equal to `cxbegin(s) .. cxend(s)`): an `xiterator`
over `stepper_begin(s)` and the requested shape (xbroadcast.hpp lines
342-387); no compatibility check is performed. -/
def xbeginSeq {α : Type} (e : Expr α) (s : List Nat) : List α := stepperElems e s

/-- Sequence traversed by `begin() .. end()` (equal to `cbegin() .. cend()`
and to the storage iterator range): iteration in the node's own fixed shape
(xbroadcast.hpp lines 302-335: `return cxbegin(shape());`). -/
def beginSeq {α : Type} (e : Expr α) : List α := stepperElems e (shape e)

/-- Variadic element access `operator()(args...)`.  For a bcast node this is
`detail::get_element(m_e, args...)` (xbroadcast.hpp line 249); `get_element`
itself is not under src/ and is modelled from the spec (4.2): it delegates
directly to the child using the same indices, the child being responsible
for any interpretation of them. -/
def opApp {α : Type} : Expr α → List Nat → α
  | .leaf _ _ ap _ _, a => ap a
  | .bcast c _, a => opApp c a

/-- Multi-index-container element access `operator[](index)`.  For a bcast
node the index is forwarded unchanged to the child (xbroadcast.hpp line
261: `return m_e[index];`), with no validation and no translation. -/
def opInd {α : Type} : Expr α → List Nat → α
  | .leaf _ _ _ ind _, i => ind i
  | .bcast c _, i => opInd c i

/-- The comparison `std::equal(m_shape.cbegin(), m_shape.cend(),
m_e.shape().cbegin())` of xbroadcast.hpp line 290: element-wise equality
over the first range (the second range being at least as long is a C++
precondition, guaranteed at the call site by the rank-equality conjunct). -/
def stdEqual (xs ys : List Nat) : Bool :=
  (xs.zip ys).all fun p => p.1 == p.2

/-- Triviality predicate `is_trivial_broadcast(strides)`.  A leaf answers
through its own capability; a bcast node answers per xbroadcast.hpp lines
288-292: its rank equals the child's rank, its shape is element-wise equal
to the child's shape, and the child reports the strides trivial. -/
def is_trivial_broadcast {α : Type} : Expr α → List Int → Bool
  | .leaf _ _ _ _ triv, st => triv st
  | .bcast c msh, st =>
      (msh.length == dimension c) && stdEqual msh (shape c)
        && is_trivial_broadcast c st

/-- Construction of an `xbroadcast` node (xbroadcast.hpp lines 204-210):
`m_shape` is initialised from the requested shape and then reconciled in
place with the child's shape by the shape-broadcasting algorithm; on
mismatch the construction fails with the algorithm's eager error (spec 7:
this happens at construction time, never deferred to access or iteration). -/
def mkBroadcast {α : Type} (e : Expr α) (s : List Nat) :
    Except BroadcastError (Expr α) :=
  match broadcast_shape (shape e) s with
  | .ok (msh, _) => .ok (.bcast e msh)
  | .error err => .error err

/-- The member `xbroadcast::broadcast_shape(shape)` (xbroadcast.hpp lines
274-279): it reconciles the node's fixed `m_shape`, as the source, into the
caller-provided target storage via the free algorithm; the node's own shape
is immutable and unaffected.  For a leaf the external contract provides the
same behaviour over the leaf's own shape. -/
def memberBroadcastShape {α : Type} : Expr α → List Nat →
    Except BroadcastError (List Nat × Bool)
  | .bcast _ msh, s => broadcast_shape msh s
  | .leaf sh _ _ _ _, s => broadcast_shape sh s

/-- Ownership of the stored child expression: `std::conditional_t<LV,
const E&, E> m_e` (xbroadcast.hpp line 116) — a borrowed const reference
when `LV` is true, an owned copy when `LV` is false. -/
inductive Ownership where
  | borrowed
  | owned
deriving DecidableEq

/-- The two shape arguments accepted by the factory surface: an ordered
sequence container, or a literal (initializer) list of extents
(xbroadcast.hpp lines 171-187). -/
inductive ShapeArg where
  | container (s : List Nat)
  | initList (s : List Nat)

/-- The extents carried by a factory shape argument (the structural
conversion performed by `detail::forward_shape`, xbroadcast.hpp 126-157). -/
def shapeArgList : ShapeArg → List Nat
  | .container s => s
  | .initList s => s

/-- The `LV` template argument chosen by each factory overload:
the sequence-container overload uses `std::is_lvalue_reference` of the
expression argument (xbroadcast.hpp line 174), while the initializer-list
overload fixes `LV` to `false` (xbroadcast.hpp line 184). -/
def factoryLV (isLvalue : Bool) : ShapeArg → Bool
  | .container _ => isLvalue
  | .initList _ => false

/-- Storage decision induced by the `LV` template argument
(xbroadcast.hpp line 116). -/
def storageKind (lv : Bool) : Ownership :=
  if lv then .borrowed else .owned

/-- The `broadcast(expression, shape)` factory surface (both overloads,
xbroadcast.hpp lines 171-187): builds the node and fixes, once and for all,
how the child is stored.  Caveat on the error outcome: it records that the
constructor's eager shape check fired; it does not model a catchable error
reaching the factory's caller, because the constructor (xbroadcast.hpp
lines 74 and 206) is declared noexcept, so in C++ the raise terminates the
program rather than propagating. -/
def broadcastFactory {α : Type} (e : Expr α) (isLvalue : Bool) (sa : ShapeArg) :
    Except BroadcastError (Expr α × Ownership) :=
  (mkBroadcast e (shapeArgList sa)).map
    fun n => (n, storageKind (factoryLV isLvalue sa))

/-- Pairwise broadcast compatibility of two already-aligned shapes of equal
rank: every dimension pair (s, t) satisfies s = 1 or s = t. -/
def compatZip (xs ys : List Nat) : Bool :=
  (xs.zip ys).all fun p => p.1 == 1 || p.1 == p.2

/-- Broadcast compatibility of a source shape with a target shape in the
strict sense of spec 4.1 and section 8: the source rank does not exceed the
target rank and every trailing-aligned dimension pair (s, t) satisfies
s = 1 or s = t (left-padded source dimensions satisfy this trivially). -/
def strictCompat (src tgt : List Nat) : Bool :=
  decide (src.length ≤ tgt.length) && compatZip (padShape src tgt) tgt

/-- A one-dimensional storage-backed leaf over concrete integer values, used
as a concrete child expression; all its access paths read the value list and
its strides are reported trivial. -/
def leaf1D (xs : List Int) : Expr Int :=
  .leaf [xs.length] (fun ix => xs.getD (ix.getD 0 0) 0)
    (fun ix => xs.getD (ix.getD 0 0) 0) (fun ix => xs.getD (ix.getD 0 0) 0)
    (fun _ => true)

/-! ### Helper lemmas about the shape-broadcasting algorithm -/

theorem bcastDims_all_ok (l : List (Nat × Nat))
    (h : ∀ p ∈ l, p.1 = 1 ∨ p.1 = p.2) :
    bcastDims l = .ok (l.map Prod.snd, false) := by
  induction l with
  | nil => rfl
  | cons p rest ih =>
    obtain ⟨s, t⟩ := p
    have hr := ih fun q hq => h q (List.mem_cons_of_mem _ hq)
    have hp : s = 1 ∨ s = t := h (s, t) (List.mem_cons_self _ _)
    simp [bcastDims, hr, hp]

theorem bcastDims_bad (l : List (Nat × Nat))
    (h : ∃ p ∈ l, ¬(p.1 = 1 ∨ p.1 = p.2) ∧ ¬(p.2 = 1 ∧ p.2 < p.1)) :
    bcastDims l = .error .shapeMismatch := by
  induction l with
  | nil => simp at h
  | cons p rest ih =>
    obtain ⟨s, t⟩ := p
    obtain ⟨q, hq, hbad⟩ := h
    rcases List.mem_cons.mp hq with hhead | htail
    · subst hhead
      cases hrec : bcastDims rest with
      | error e => cases e; simp [bcastDims, hrec]
      | ok pr =>
        obtain ⟨r, ch⟩ := pr
        simp only at hbad
        simp [bcastDims, hrec, hbad.1, hbad.2]
    · have := ih ⟨q, htail, hbad⟩
      simp [bcastDims, this]

theorem bcastDims_ok_iff (l : List (Nat × Nat)) (r : List Nat) (ch : Bool)
    (h : bcastDims l = .ok (r, ch)) :
    (ch = true ↔ r ≠ l.map Prod.snd) ∧
      (ch = true ↔ ∃ p ∈ l, 1 < p.1 ∧ p.2 < p.1) := by
  induction l generalizing r ch with
  | nil =>
    simp only [bcastDims, Except.ok.injEq, Prod.mk.injEq] at h
    obtain ⟨h1, h2⟩ := h
    subst h1; subst h2
    simp
  | cons p rest ih =>
    obtain ⟨s, t⟩ := p
    cases hrec : bcastDims rest with
    | error e => simp [bcastDims, hrec] at h
    | ok pr =>
      obtain ⟨r', ch'⟩ := pr
      have IH := ih r' ch' hrec
      by_cases h1 : s = 1 ∨ s = t
      · simp only [bcastDims, hrec, if_pos h1, Except.ok.injEq, Prod.mk.injEq] at h
        obtain ⟨hr, hch⟩ := h
        subst hr; subst hch
        constructor
        · rw [IH.1]
          simp [List.map_cons]
        · rw [IH.2]
          simp only [List.mem_cons, exists_eq_or_imp]
          have : ¬(1 < s ∧ t < s) := by rcases h1 with h1 | h1 <;> omega
          simp [this]
      · by_cases h2 : t = 1 ∧ t < s
        · simp only [bcastDims, hrec, if_neg h1, if_pos h2, Except.ok.injEq,
            Prod.mk.injEq] at h
          obtain ⟨hr, hch⟩ := h
          subst hr; subst hch
          have hst : s ≠ t := by omega
          constructor
          · simp [List.map_cons, hst]
          · simp only [List.mem_cons, exists_eq_or_imp]
            have : 1 < s ∧ t < s := by omega
            simp [this]
        · simp [bcastDims, hrec, if_neg h1, if_neg h2] at h

theorem padShape_length (src tgt : List Nat) (h : src.length ≤ tgt.length) :
    (padShape src tgt).length = tgt.length := by
  simp [padShape]
  omega

theorem alignedPairs_map_snd (src tgt : List Nat) (h : src.length ≤ tgt.length) :
    (alignedPairs src tgt).map Prod.snd = tgt := by
  apply List.map_snd_zip
  rw [padShape_length _ _ h]

theorem compatZip_prop {xs ys : List Nat} (h : compatZip xs ys = true) :
    ∀ p ∈ xs.zip ys, p.1 = 1 ∨ p.1 = p.2 := by
  intro p hp
  have := List.all_eq_true.mp h p hp
  simpa using this

theorem broadcast_shape_of_compat (src tgt : List Nat)
    (h : strictCompat src tgt = true) :
    broadcast_shape src tgt = .ok (tgt, false) := by
  obtain ⟨hd, hcz⟩ := Bool.and_eq_true_iff.mp h
  have hlen : src.length ≤ tgt.length := of_decide_eq_true hd
  unfold broadcast_shape
  rw [if_neg (by omega)]
  have hall := bcastDims_all_ok (alignedPairs src tgt) (compatZip_prop hcz)
  rw [hall, alignedPairs_map_snd _ _ hlen]

theorem compatZip_self (l : List Nat) : compatZip l l = true := by
  induction l with
  | nil => rfl
  | cons x xs ih => simp [compatZip] at ih ⊢; exact ih

theorem padShape_self (l : List Nat) : padShape l l = l := by
  simp [padShape]

theorem strictCompat_self (l : List Nat) : strictCompat l l = true := by
  simp [strictCompat, padShape_self, compatZip_self]

theorem compatZip_replicate_one (k : Nat) (ys : List Nat) :
    compatZip (List.replicate k 1) ys = true := by
  apply List.all_eq_true.mpr
  intro p hp
  have h1 : p.1 ∈ List.replicate k 1 := by
    obtain ⟨a, b⟩ := p
    exact (List.of_mem_zip hp).1
  have := List.eq_of_mem_replicate h1
  simp [this]

theorem compatZip_append (x1 x2 y1 y2 : List Nat) (h : x1.length = y1.length) :
    compatZip (x1 ++ x2) (y1 ++ y2) = (compatZip x1 y1 && compatZip x2 y2) := by
  unfold compatZip
  rw [List.zip_append h, List.all_append]

theorem compatZip_trans (xs ys zs : List Nat) (h1 : xs.length = ys.length)
    (h2 : ys.length = zs.length) (c1 : compatZip xs ys = true)
    (c2 : compatZip ys zs = true) : compatZip xs zs = true := by
  induction xs generalizing ys zs with
  | nil =>
    cases ys with
    | nil =>
      cases zs with
      | nil => rfl
      | cons z zs' => simp at h2
    | cons y ys' => simp at h1
  | cons x xs ih =>
    cases ys with
    | nil => simp at h1
    | cons y ys' =>
      cases zs with
      | nil => simp at h2
      | cons z zs' =>
        simp only [compatZip, List.zip_cons_cons, List.all_cons, Bool.and_eq_true,
          Bool.or_eq_true, beq_iff_eq] at c1 c2 ⊢
        refine ⟨?_, ih ys' zs' (by simpa using h1) (by simpa using h2) c1.2 c2.2⟩
        rcases c1.1 with hx | hx
        · exact Or.inl hx
        · rcases c2.1 with hy | hy
          · exact Or.inl (hx.trans hy)
          · exact Or.inr (hx.trans hy)

theorem strictCompat_trans (a b c : List Nat) (hab : strictCompat a b = true)
    (hbc : strictCompat b c = true) : strictCompat a c = true := by
  obtain ⟨hd1, hz1⟩ := Bool.and_eq_true_iff.mp hab
  obtain ⟨hd2, hz2⟩ := Bool.and_eq_true_iff.mp hbc
  have l1 : a.length ≤ b.length := of_decide_eq_true hd1
  have l2 : b.length ≤ c.length := of_decide_eq_true hd2
  have key : padShape a c =
      List.replicate (c.length - b.length) 1 ++ padShape a b := by
    unfold padShape
    rw [← List.append_assoc, ← List.replicate_add]
    congr 2
    omega
  apply Bool.and_eq_true_iff.mpr
  refine ⟨decide_eq_true (by omega), ?_⟩
  rw [key]
  apply compatZip_trans _ (padShape b c) _ ?_ ?_ ?_ hz2
  · rw [padShape_length _ _ l2]
    simp [padShape_length _ _ l1]
    omega
  · rw [padShape_length _ _ l2]
  · show compatZip (List.replicate (c.length - b.length) 1 ++ padShape a b)
      (List.replicate (c.length - b.length) 1 ++ b) = true
    rw [compatZip_append _ _ _ _ (by simp)]
    simp [compatZip_replicate_one, hz1]

theorem stdEqual_self (l : List Nat) : stdEqual l l = true := by
  induction l with
  | nil => rfl
  | cons x xs ih => simp [stdEqual] at ih ⊢; exact ih

theorem stdEqual_iff (xs ys : List Nat) :
    (xs.length = ys.length ∧ stdEqual xs ys = true) ↔ xs = ys := by
  constructor
  · rintro ⟨h1, h2⟩
    induction xs generalizing ys with
    | nil =>
      cases ys with
      | nil => rfl
      | cons y ys' => simp at h1
    | cons x xs ih =>
      cases ys with
      | nil => simp at h1
      | cons y ys' =>
        simp only [stdEqual, List.zip_cons_cons, List.all_cons, Bool.and_eq_true,
          beq_iff_eq] at h2
        rw [h2.1, ih ys' (by simpa using h1) h2.2]
  · rintro rfl
    exact ⟨rfl, stdEqual_self xs⟩

/-! ### Claims -/

/-- C1: for every child expression e and target shape T whose trailing-aligned
dimension pairs (s, t) against e's shape all satisfy s = 1 or s = t, the node
constructed by broadcast(e, T) has shape equal to T element-wise (fixed for
the node's lifetime — nodes are immutable values) and dimension equal to the
length of T. -/
theorem c1_broadcast_shape_eq_target {α : Type} (e : Expr α) (T : List Nat)
    (h : strictCompat (shape e) T = true) :
    mkBroadcast e T = .ok (.bcast e T) ∧
      shape (Expr.bcast e T) = T ∧ dimension (Expr.bcast e T) = T.length := by
  refine ⟨?_, rfl, rfl⟩
  unfold mkBroadcast
  rw [broadcast_shape_of_compat _ _ h]

/-- Witness for C1 at the concrete child of shape (3) and target (2, 3). -/
theorem c1_witness :
    mkBroadcast (leaf1D [2, 3, 1]) [2, 3]
        = .ok (.bcast (leaf1D [2, 3, 1]) [2, 3]) ∧
      shape (Expr.bcast (leaf1D [2, 3, 1]) [2, 3]) = [2, 3] ∧
      dimension (Expr.bcast (leaf1D [2, 3, 1]) [2, 3]) = [2, 3].length :=
  c1_broadcast_shape_eq_target (leaf1D [2, 3, 1]) [2, 3] (by decide)

/-- C2 counterexample: the child shape (3) against the target (1) exhibits
the trailing-aligned pair (3, 1) with s ≠ 1 and s ≠ t, yet construction
succeeds — the algorithm stretches the stored target extent 1 up to 3
instead of raising a shape mismatch. -/
theorem c2_mismatch_can_succeed :
    ((3 : Nat) ≠ 1 ∧ (3 : Nat) ≠ 1) ∧
      alignedPairs (shape (leaf1D [2, 3, 1])) [1] = [(3, 1)] ∧
      (mkBroadcast (leaf1D [2, 3, 1]) [1]).map shape = .ok [3] :=
  ⟨by decide, by decide, rfl⟩

/-- C2 (amended): for every child e and target T with some trailing-aligned
pair (s, t) where s ≠ 1, s ≠ t and not (t = 1 and t < s), constructing
broadcast(e, T) fails with a shape-mismatch error raised synchronously and
eagerly at construction time (the constructor itself produces the error;
element access and iteration never raise).  No propagation to the caller of
the factory function is asserted: the constructor at xbroadcast.hpp lines 74
and 206 is declared noexcept, so in C++ the raised error terminates the
program instead of reaching the factory's caller. -/
theorem c2_mismatch_error {α : Type} (e : Expr α) (T : List Nat)
    (hlen : (shape e).length ≤ T.length)
    (h : ∃ p ∈ alignedPairs (shape e) T,
        p.1 ≠ 1 ∧ p.1 ≠ p.2 ∧ ¬(p.2 = 1 ∧ p.2 < p.1)) :
    mkBroadcast e T = .error .shapeMismatch := by
  have hbd : bcastDims (alignedPairs (shape e) T) = .error .shapeMismatch := by
    apply bcastDims_bad
    obtain ⟨p, hp, h1, h2, h3⟩ := h
    exact ⟨p, hp, by tauto, h3⟩
  unfold mkBroadcast broadcast_shape
  rw [if_neg (by omega), hbd]

/-- Witness for C2 (amended) at child shape (3), target (2, 4): the pair
(3, 4) mismatches with a non-1 target extent, so construction fails. -/
theorem c2_witness :
    mkBroadcast (leaf1D [2, 3, 1]) [2, 4] = .error .shapeMismatch :=
  c2_mismatch_error (leaf1D [2, 3, 1]) [2, 4] (by decide) (by decide)

/-- C3: a 1-D child of shape (3) with values [a, b, c] broadcast to (2, 3)
gives a node of shape (2, 3) and dimension 2 whose begin-to-end iteration
yields [a, b, c, a, b, c] in row-major order — the leading broadcast
dimension replicates the whole inner sequence; the concrete scenario
[2, 3, 1] is the instance a = 2, b = 3, c = 1. -/
theorem c3_replication (a b c : Int) :
    mkBroadcast (leaf1D [a, b, c]) [2, 3]
        = .ok (.bcast (leaf1D [a, b, c]) [2, 3]) ∧
      shape (Expr.bcast (leaf1D [a, b, c]) [2, 3]) = [2, 3] ∧
      dimension (Expr.bcast (leaf1D [a, b, c]) [2, 3]) = 2 ∧
      beginSeq (Expr.bcast (leaf1D [a, b, c]) [2, 3]) = [a, b, c, a, b, c] :=
  ⟨rfl, rfl, rfl, rfl⟩

/-- C4: when e broadcasts to T1 and T1 broadcasts to T2, the nested node
broadcast(broadcast(e, T1), T2) has the same fixed shape as the direct
broadcast(e, T2), its begin-to-end iteration yields the same element
sequence, and over every requested iteration shape both yield the child's
own stepping — the broadcast node constructs no cursor of its own, so
chained broadcasts collapse to the child's single cursor. -/
theorem c4_nested_collapse {α : Type} (e : Expr α) (T1 T2 : List Nat)
    (h1 : strictCompat (shape e) T1 = true)
    (h2 : strictCompat T1 T2 = true) :
    mkBroadcast e T1 = .ok (.bcast e T1) ∧
      mkBroadcast (Expr.bcast e T1) T2 = .ok (.bcast (.bcast e T1) T2) ∧
      mkBroadcast e T2 = .ok (.bcast e T2) ∧
      shape (Expr.bcast (Expr.bcast e T1) T2) = shape (Expr.bcast e T2) ∧
      beginSeq (Expr.bcast (Expr.bcast e T1) T2) = beginSeq (Expr.bcast e T2) ∧
      ∀ s : List Nat,
        stepperElems (Expr.bcast (Expr.bcast e T1) T2) s = stepperElems e s := by
  have k1 : mkBroadcast e T1 = .ok (.bcast e T1) := by
    unfold mkBroadcast
    rw [broadcast_shape_of_compat _ _ h1]
  have k2 : mkBroadcast (Expr.bcast e T1) T2
      = .ok (.bcast (.bcast e T1) T2) := by
    unfold mkBroadcast
    simp only [shape]
    rw [broadcast_shape_of_compat _ _ h2]
  have k3 : mkBroadcast e T2 = .ok (.bcast e T2) := by
    unfold mkBroadcast
    rw [broadcast_shape_of_compat _ _ (strictCompat_trans _ T1 _ h1 h2)]
  exact ⟨k1, k2, k3, rfl, rfl, fun _ => rfl⟩

/-- Witness for C4 at child shape (3), T1 = (1, 3), T2 = (2, 3). -/
theorem c4_witness :
    mkBroadcast (leaf1D [2, 3, 1]) [1, 3]
        = .ok (.bcast (leaf1D [2, 3, 1]) [1, 3]) ∧
      mkBroadcast (Expr.bcast (leaf1D [2, 3, 1]) [1, 3]) [2, 3]
        = .ok (.bcast (.bcast (leaf1D [2, 3, 1]) [1, 3]) [2, 3]) ∧
      mkBroadcast (leaf1D [2, 3, 1]) [2, 3]
        = .ok (.bcast (leaf1D [2, 3, 1]) [2, 3]) ∧
      shape (Expr.bcast (Expr.bcast (leaf1D [2, 3, 1]) [1, 3]) [2, 3])
        = shape (Expr.bcast (leaf1D [2, 3, 1]) [2, 3]) ∧
      beginSeq (Expr.bcast (Expr.bcast (leaf1D [2, 3, 1]) [1, 3]) [2, 3])
        = beginSeq (Expr.bcast (leaf1D [2, 3, 1]) [2, 3]) ∧
      ∀ s : List Nat,
        stepperElems (Expr.bcast (Expr.bcast (leaf1D [2, 3, 1]) [1, 3]) [2, 3]) s
          = stepperElems (leaf1D [2, 3, 1]) s :=
  c4_nested_collapse (leaf1D [2, 3, 1]) [1, 3] [2, 3] (by decide) (by decide)

/-- C5 counterexample: through the initializer-list factory overload a named
(lvalue) expression is stored as an owned copy, not as a non-owning
reference — that overload fixes the LV template argument to false regardless
of the argument's value category. -/
theorem c5_initlist_ownership_cex :
    (broadcastFactory (leaf1D [2, 3, 1]) true (ShapeArg.initList [3])).map
        Prod.snd = .ok Ownership.owned ∧
      Ownership.owned ≠ Ownership.borrowed :=
  ⟨rfl, by decide⟩

/-- C5 (amended): in the sequence-container factory overload the value
category of the expression decides ownership once at construction — lvalue
stored as a borrowed reference, rvalue as an owned copy — while the
initializer-list overload always stores an owned copy regardless of value
category; the decision never changes afterwards (nodes are immutable). -/
theorem c5_ownership_amended {α : Type} (e : Expr α) (isLv : Bool)
    (s : List Nat) :
    (broadcastFactory e isLv (ShapeArg.container s)).map Prod.snd
        = (mkBroadcast e s).map
            (fun _ => if isLv then Ownership.borrowed else Ownership.owned) ∧
      (broadcastFactory e isLv (ShapeArg.initList s)).map Prod.snd
        = (mkBroadcast e s).map (fun _ => Ownership.owned) := by
  constructor <;> cases hmk : mkBroadcast e s <;>
    simp [broadcastFactory, shapeArgList, factoryLV, storageKind, hmk,
      Except.map]

/-- C6: the node's is_trivial_broadcast(strides) is true exactly when the
node's rank equals the child's rank, the node's shape is element-wise
identical to the child's shape, and the child itself reports the candidate
strides trivial. -/
theorem c6_is_trivial_iff {α : Type} (c : Expr α) (msh : List Nat)
    (st : List Int) :
    is_trivial_broadcast (Expr.bcast c msh) st = true ↔
      (dimension (Expr.bcast c msh) = dimension c ∧ msh = shape c ∧
        is_trivial_broadcast c st = true) := by
  show ((msh.length == dimension c) && stdEqual msh (shape c)
      && is_trivial_broadcast c st) = true ↔ _
  simp only [Bool.and_eq_true, beq_iff_eq]
  constructor
  · rintro ⟨⟨hlen, heq⟩, htriv⟩
    exact ⟨hlen, (stdEqual_iff _ _).mp ⟨hlen, heq⟩, htriv⟩
  · rintro ⟨hdim, hsh, htriv⟩
    subst hsh
    exact ⟨⟨rfl, stdEqual_self _⟩, htriv⟩

/-- C7: broadcasting a child to its own shape is trivial whenever the child
reports its native strides trivial, and iterating the resulting node yields
exactly the child's own element sequence in the same order. -/
theorem c7_idempotence {α : Type} (e : Expr α) (st : List Int)
    (h : is_trivial_broadcast e st = true) :
    mkBroadcast e (shape e) = .ok (.bcast e (shape e)) ∧
      is_trivial_broadcast (Expr.bcast e (shape e)) st = true ∧
      beginSeq (Expr.bcast e (shape e)) = beginSeq e := by
  refine ⟨?_, ?_, rfl⟩
  · unfold mkBroadcast
    rw [broadcast_shape_of_compat _ _ (strictCompat_self (shape e))]
  · show (((shape e).length == dimension e) && stdEqual (shape e) (shape e)
        && is_trivial_broadcast e st) = true
    simp [dimension, stdEqual_self, h]

/-- Witness for C7 at the concrete child of shape (3), whose strides
predicate is trivially true, with candidate strides (1). -/
theorem c7_witness :
    mkBroadcast (leaf1D [2, 3, 1]) (shape (leaf1D [2, 3, 1]))
        = .ok (.bcast (leaf1D [2, 3, 1]) (shape (leaf1D [2, 3, 1]))) ∧
      is_trivial_broadcast
          (Expr.bcast (leaf1D [2, 3, 1]) (shape (leaf1D [2, 3, 1]))) [1]
        = true ∧
      beginSeq (Expr.bcast (leaf1D [2, 3, 1]) (shape (leaf1D [2, 3, 1])))
        = beginSeq (leaf1D [2, 3, 1]) :=
  c7_idempotence (leaf1D [2, 3, 1]) [1] (by decide)

/-- C8: both element-access paths of a broadcast node forward to the child
unchanged — the variadic path returns the child's element for the same index
tuple and the multi-index path returns the child's element for the same
container — for every index, with no translation and no validation against
the node's broadcast shape (the equations hold for every stored shape and
every index whatsoever). -/
theorem c8_access_forwarding {α : Type} (c : Expr α) (msh : List Nat)
    (args ix : List Nat) :
    opApp (Expr.bcast c msh) args = opApp c args ∧
      opInd (Expr.bcast c msh) ix = opInd c ix :=
  ⟨rfl, rfl⟩

/-- C9: when source and target shapes are compatible, the shape-broadcasting
algorithm returns true exactly when it changed the caller-provided target
storage, and it changes it exactly when the source requires a strictly
larger extent at some aligned dimension (a source extent above 1 exceeding
the target extent there); the node's broadcast_shape member reconciles the
node's fixed shape, as the source, into the caller's shape via the same
algorithm, the node's own shape being immutable. -/
theorem c9_broadcast_shape_mutation (input target out : List Nat) (ch : Bool)
    (h : broadcast_shape input target = .ok (out, ch)) :
    (ch = true ↔ out ≠ target) ∧
      (ch = true ↔ ∃ p ∈ alignedPairs input target, 1 < p.1 ∧ p.2 < p.1) ∧
      (∀ (α : Type) (b : Expr α) (s : List Nat),
        memberBroadcastShape b s = broadcast_shape (shape b) s) := by
  unfold broadcast_shape at h
  by_cases hlen : target.length < input.length
  · rw [if_pos hlen] at h
    cases h
  · rw [if_neg hlen] at h
    have IH := bcastDims_ok_iff _ _ _ h
    refine ⟨?_, IH.2, fun α b s => by cases b <;> rfl⟩
    have h1 := IH.1
    rwa [alignedPairs_map_snd _ _ (by omega)] at h1

/-- Witness for C9 at source (3), target (1): the algorithm stretches the
target to (3) and reports the change. -/
theorem c9_witness :
    (true = true ↔ ([3] : List Nat) ≠ [1]) ∧
      (true = true ↔ ∃ p ∈ alignedPairs [3] [1], 1 < p.1 ∧ p.2 < p.1) :=
  ⟨(c9_broadcast_shape_mutation [3] [1] [3] true rfl).1,
    (c9_broadcast_shape_mutation [3] [1] [3] true rfl).2.1⟩

/-- C10: the shape-parameterized iteration entry points accept every
requested shape — compatible with the node's fixed shape or not — without
any check and without any failure path (they are total), each delegating to
the child's stepper over the requested shape; concretely, requesting the
incompatible shape (2) from a node of shape (3) is silently accepted and
yields the child's stepping over (2). -/
theorem c10_unchecked_entry_points {α : Type} (c : Expr α)
    (msh s : List Nat) :
    xbeginSeq (Expr.bcast c msh) s = stepperElems c s ∧
      stepperElems (Expr.bcast c msh) s = stepperElems c s ∧
      beginSeq (Expr.bcast c msh) = stepperElems c msh ∧
      xbeginSeq (Expr.bcast (leaf1D [2, 3, 1]) [3]) [2] = [2, 3] :=
  ⟨rfl, rfl, rfl, rfl⟩

end Xbroadcast
